import Mathlib

/-!
Verification of the junction terminal-UI toolkit core (package `jcn`).

The definitions below are shallow embeddings of the Python source:
  * `jcn/util.py`         — clamp, crop_or_expand, weighted_round_robin
  * `jcn/container_elements.py` — SplitContainer._calculate_element_sizes
  * `jcn/formatting.py`   — StringComponent / StringWithFormatting operations
  * `jcn/textwrap.py`     — TextWrapper.wrap for plain strings
  * `jcn/base.py`         — ABCUIElement.get_updated_blocks, dirty flags
  * `jcn/input_elements.py` — LineBuffer

Python strings are modelled as `List Char`, tuples of runs as `List Run`,
`None`-able values as `Option`, and raised exceptions as `Option`/`Except`
failure values.  Unbounded `while` loops are modelled with an explicit fuel
parameter; divergence of the source loop is expressed as the function
returning `none` for every fuel value.
-/

namespace Jcn

/-! ## util.py -/

/-- Embeds `util.clamp(value, min_, max_)` for the case where both bounds are
given: the Python code returns `sorted((value, min_, max_))[1]`, the median of
the three values. -/
def clamp (value min_ max_ : Int) : Int :=
  max (min value min_) (min (max value min_) max_)

/-- Python `seq * n` for a sequence: `n` concatenated copies of `seq`.  Used to
embed `default * missing` in `crop_or_expand`. -/
def seqMul (d : List α) (n : Nat) : List α :=
  (List.replicate n d).flatten

/-- The `scheme` argument of `crop_or_expand` (`'beginning' | 'middle' |
`'end'`). -/
inductive CropScheme where
  | beginning
  | middle
  | ending
  deriving DecidableEq, Repr

/-- Embeds `util.crop_or_expand(iterable, length, default, scheme)` on list
sequences.  The Python middle-crop slice `iterable[extra // 2 : -extra // 2]`
is rendered with `-extra // 2 = -((extra + 1) / 2)` (floor division of a
negative number), i.e. keep indices from `extra / 2` up to
`len - (extra + 1) / 2`.  The end-crop slice `iterable[-length:]` returns the
whole sequence when `length = 0` (Python negative-zero index quirk), which the
embedding reproduces. -/
def cropOrExpand (l : List α) (length : Nat) (default : List α)
    (scheme : CropScheme) : List α :=
  if l.length > length then
    match scheme with
    | .beginning => l.take length
    | .middle =>
        let extra := l.length - length
        (l.take (l.length - (extra + 1) / 2)).drop (extra / 2)
    | .ending => if length = 0 then l else l.drop (l.length - length)
  else if l.length < length then
    let missing := length - l.length
    match scheme with
    | .beginning => l ++ seqMul default missing
    | .middle =>
        seqMul default ((missing + 1) / 2) ++ l ++ seqMul default (missing / 2)
    | .ending => seqMul default missing ++ l
  else l

/-- Stable insertion of an item into a weight-descending sorted list: the item
goes after every element of greater or equal weight, matching the placement
`sorted(iterable, key=..., reverse=True)` gives elements that arrive later in
the input. -/
def insertDescByWeight (x : α × Nat) : List (α × Nat) → List (α × Nat)
  | [] => [x]
  | y :: ys => if y.2 ≥ x.2 then y :: insertDescByWeight x ys else x :: y :: ys

/-- Embeds `sorted(iterable, key=lambda tup: tup[1], reverse=True)`: a stable
sort putting heavier weights first. -/
def sortDescByWeight : List (α × Nat) → List (α × Nat)
  | [] => []
  | x :: xs => insertDescByWeight x (sortDescByWeight xs)

/-- One sweep of the `while still_to_process` loop body of
`util.weighted_round_robin`: `for i, (item, weight) in
enumerate(still_to_process)` appends items whose weight exceeds
`assigned_weight` and otherwise executes `del still_to_process[i]`, which (as
in Python, where deleting during iteration shifts the list under the running
index) removes the current pair and skips the element that slides into its
slot.  Returns the items appended to `cyclable_list` during the sweep and the
list remaining afterwards. -/
def wrrSweep (assignedWeight : Nat) :
    List (α × Nat) → List α × List (α × Nat)
  | [] => ([], [])
  | x :: rest =>
      if x.2 > assignedWeight then
        let (app, rem) := wrrSweep assignedWeight rest
        (x.1 :: app, x :: rem)
      else
        match rest with
        | [] => ([], [])
        | y :: rest' =>
            let (app, rem) := wrrSweep assignedWeight rest'
            (app, y :: rem)

/-- The `while still_to_process:` loop of `util.weighted_round_robin`,
modelled with fuel: each iteration runs one sweep and increments
`assigned_weight`.  The Python loop always terminates (each sweep eventually
deletes every item), so for sufficient fuel this computes the full
`cyclable_list`. -/
def wrrLoop (fuel assignedWeight : Nat) (l : List (α × Nat)) : List α :=
  match fuel with
  | 0 => []
  | fuel + 1 =>
      match l with
      | [] => []
      | _ =>
          let (app, rem) := wrrSweep assignedWeight l
          app ++ wrrLoop fuel (assignedWeight + 1) rem

/-- Embeds `util.weighted_round_robin(iterable)` up to the final `cycle(...)`:
produces the finite `cyclable_list` that the Python generator cycles over
forever. -/
def weightedRoundRobinList (fuel : Nat) (l : List (α × Nat)) : List α :=
  wrrLoop fuel 0 (sortDescByWeight l)

/-! ## container_elements.py — SplitContainer -/

/-- The data `SplitContainer._calculate_element_sizes` reads from each child on
the split axis: `element.get_min_size(dimension)`,
`element.get_max_size(dimension)` (each `None`-able) and the weight stored in
`self._weights`. -/
structure SplitItem where
  minSize : Option Nat
  maxSize : Option Nat
  weight : Nat
  deriving DecidableEq, Repr

/-- The mutable per-item state of the allocation loop, mirroring
`SplitContainerItemInfo`: `size` per item (seeded at the declared minimum),
the `_round_robin_additions_to_ignore` counter per item, and the running
`allocated_size`. -/
structure AllocState where
  sizes : List Nat
  ignores : List Nat
  allocated : Nat
  deriving DecidableEq, Repr

/-- The `for item in weighted_round_robin(weighted_items)` loop of
`SplitContainer._calculate_element_sizes`, modelled with fuel.  `cyc` is the
finite cyclable list of item indices (cycled via `k % cyc.length`), `maxs` the
per-item max-size constraints and `size` the target.  The loop breaks once
`allocated_size >= size`; a token whose item is at its max is skipped; a token
with a positive ignore counter consumes the counter instead of granting a
unit.  Returns `none` when the fuel runs out before the loop breaks. -/
def allocLoop (fuel : Nat) (size : Nat) (cyc : List Nat)
    (maxs : List (Option Nat)) (k : Nat) (st : AllocState) :
    Option (List Nat) :=
  match fuel with
  | 0 => none
  | fuel + 1 =>
      if st.allocated ≥ size then some st.sizes
      else
        match cyc.get? (k % cyc.length) with
        | none => some st.sizes
        | some i =>
            let cur := st.sizes.getD i 0
            let eligible :=
              match maxs.getD i none with
              | none => true
              | some mx => cur < mx
            let st' :=
              if eligible then
                if st.ignores.getD i 0 > 0 then
                  { st with ignores := st.ignores.set i (st.ignores.getD i 0 - 1) }
                else
                  { st with sizes := st.sizes.set i (cur + 1),
                            allocated := st.allocated + 1 }
              else st
            allocLoop fuel size cyc maxs (k + 1) st'

/-- Embeds `SplitContainer._calculate_element_sizes(size)`: seed each item at
its min (`or 0`), build the weighted round-robin cycle over `(item, weight)`
pairs (represented by item indices), then consume tokens until the target size
is allocated.  Returns the per-child sizes in the children's original order,
or `none` if the fuel is insufficient. -/
def calculateElementSizes (items : List SplitItem) (size : Nat) (fuel : Nat) :
    Option (List Nat) :=
  let mins := items.map (fun it => it.minSize.getD 0)
  let maxs := items.map (fun it => it.maxSize)
  let weighted := (List.range items.length).zip (items.map (fun it => it.weight))
  let cyc := weightedRoundRobinList fuel weighted
  allocLoop fuel size cyc maxs 0
    { sizes := mins, ignores := mins, allocated := mins.sum }

/-! ## formatting.py — StringComponent and StringWithFormatting

A `StringComponent` is a string carrying one placeholder; merging in the
source is decided by Python object identity (`other.placeholder is
self.placeholder`), so placeholders are modelled by their object identity, a
natural number id.  The singleton `null_placeholder` gets the reserved id 0.
`StringWithFormatting._content`, a tuple of components, becomes a list of
runs. -/

/-- A `StringComponent`: the identity of its `placeholder` and its text. -/
abbrev Run : Type := Nat × List Char

/-- The identity of the `null_placeholder` singleton. -/
def nullPid : Nat := 0

/-- Length of a `StringWithFormatting`: `sum(map(len, self._content))`. -/
def swfLen (runs : List Run) : Nat :=
  (runs.map (fun r => r.2.length)).sum

/-- Result type of `StringComponent.__add__`: either a single merged
`StringComponent` or a two-run `StringWithFormatting`. -/
inductive CatResult where
  | component (r : Run)
  | formatted (rs : List Run)
  deriving DecidableEq, Repr

/-- Embeds `StringComponent.__add__` for a `StringComponent` operand: if the
two placeholders are the same object, the texts are joined into one component;
otherwise the result is `StringWithFormatting((self, other))`. -/
def scAddSc (a b : Run) : CatResult :=
  if a.1 = b.1 then .component (a.1, a.2 ++ b.2) else .formatted [a, b]

/-- Embeds `StringComponent.__add__` for a plain `str` operand: with the null
placeholder the text is absorbed into the component, otherwise the plain text
becomes a separate null-placeholder component. -/
def scAddStr (a : Run) (t : List Char) : CatResult :=
  if a.1 = nullPid then .component (nullPid, a.2 ++ t)
  else .formatted [a, (nullPid, t)]

/-- Embeds `StringWithFormatting.__add__` for a `StringWithFormatting`
operand: `self.__class__(self._content + other._content)` — plain tuple
concatenation, with no merging at the seam. -/
def swfAddSwf (s t : List Run) : List Run :=
  s ++ t

/-- Embeds `StringWithFormatting.__add__` for a `StringComponent` operand:
`self._content[-1]` is inspected (raising `IndexError`, modelled `none`, on an
empty content tuple); a component with the same placeholder identity as the
final run is merged into it, otherwise it is appended as a new run. -/
def swfAddSc (s : List Run) (r : Run) : Option (List Run) :=
  match s.getLast? with
  | none => none
  | some last =>
      if r.1 = last.1 then some (s.dropLast ++ [(last.1, last.2 ++ r.2)])
      else some (s ++ [r])

/-- Embeds `StringWithFormatting.__add__` for a plain `str` operand: if the
final run (again `self._content[-1]`, partial on empty content) holds the null
placeholder the text is absorbed into it, otherwise a new null-placeholder run
is appended. -/
def swfAddStr (s : List Run) (t : List Char) : Option (List Run) :=
  match s.getLast? with
  | none => none
  | some last =>
      if last.1 = nullPid then some (s.dropLast ++ [(last.1, last.2 ++ t)])
      else some (s ++ [(nullPid, t)])

/-- Embeds `StringComponent.__radd__` for a plain `str` left operand (Python
dispatches here for `str + component`, because `StringComponent` subclasses
`str` and overrides `__radd__`): the plain text is wrapped in a
null-placeholder component and the result is
`StringWithFormatting((other, self))`, with no merging. -/
def scRaddStr (t : List Char) (a : Run) : List Run :=
  [(nullPid, t), a]

/-- The spec's run-merge invariant, decidably: no two adjacent runs share the
same placeholder identity. -/
def noAdjacentSamePid : List Run → Bool
  | [] => true
  | [_] => true
  | a :: b :: rest => (a.1 != b.1) && noAdjacentSamePid (b :: rest)

/-- Python `text[i:j]` for `0 ≤ i`, `0 ≤ j` (indices may exceed the length and
`j` may be below `i`, both yielding the clamped/empty result as in Python). -/
def pySlice (t : List Char) (i j : Nat) : List Char :=
  (t.take j).drop i

/-- The per-component loop of `StringWithFormatting._get_slice`, carried out
over the run list with the running `comp_start` offset.  Each component is
kept whole when it lies inside the slice window, cut by
`component[slice_start - comp_start : slice_stop - comp_start]` when the
window starts strictly inside it, or cut by `component[:slice_stop -
comp_start]` when the window ends inside it; the loop breaks after the first
component with `comp_stop >= slice_stop`. -/
def getSliceGo (sliceStart sliceStop : Nat) :
    List Run → Nat → List Run
  | [], _ => []
  | (p, t) :: rest, compStart =>
      let compStop := compStart + t.length
      let acc : List Run :=
        if compStart ≥ sliceStart ∧ compStop ≤ sliceStop then [(p, t)]
        else if compStart < sliceStart ∧ sliceStart < compStop then
          [(p, pySlice t (sliceStart - compStart) (sliceStop - compStart))]
        else if compStart < sliceStop ∧ sliceStop ≤ compStop then
          [(p, t.take (sliceStop - compStart))]
        else []
      if compStop ≥ sliceStop then acc
      else acc ++ getSliceGo sliceStart sliceStop rest compStop

/-- Embeds `StringWithFormatting._get_slice(start, stop)` with both bounds
given (the claims always supply them): `slice_stop` is first clamped to the
total length, then the component loop runs from offset 0. -/
def getSlice (runs : List Run) (start stop : Nat) : List Run :=
  getSliceGo start (min stop (swfLen runs)) runs 0

/-! ## textwrap.py — TextWrapper.wrap for plain strings

Chunking a plain string goes through `regex.split` on the word-separator
pattern followed by dropping empty pieces; on inputs without hyphens this
yields the maximal runs of whitespace and of non-whitespace characters, which
is what the embedding computes (the hyphen refinements of `wordsep_re` do not
affect the claims, which concern the empty input and inputs without
separators).  The line assembly loop of `TextWrapper.wrap` is embedded
faithfully, including `_lstrip`/`_rstrip` of whitespace-only chunks and the
oversized-chunk hard split. -/

/-- Accumulating pass of the plain-string chunker: `b` is the whitespace
class and `cur` the (reversed) characters of the run being collected. -/
def chunkAux (b : Bool) (cur : List Char) : List Char → List (List Char)
  | [] => [cur.reverse]
  | c :: cs =>
      if c.isWhitespace = b then chunkAux b (c :: cur) cs
      else cur.reverse :: chunkAux c.isWhitespace [c] cs

/-- Embeds `TextWrapper._chunk` on a plain string: the chunk list alternates
maximal runs of non-whitespace and whitespace characters; the empty string
produces no chunks (`regex.split('') == ['']`, and empty pieces are filtered
out). -/
def chunkPlain : List Char → List (List Char)
  | [] => []
  | c :: cs => chunkAux c.isWhitespace [c] cs

/-- Holds when `_do_strip` would delete the chunk:
`str(chunk.strip()) == ''`, i.e. the chunk is whitespace-only (or empty). -/
def isWsChunk (ch : List Char) : Bool :=
  ch.all Char.isWhitespace

/-- Embeds `TextWrapper._lstrip(chunks)`: delete leading whitespace-only
chunks. -/
def lstripChunks (chunks : List (List Char)) : List (List Char) :=
  chunks.dropWhile isWsChunk

/-- Embeds `TextWrapper._rstrip(current_line)`: delete trailing
whitespace-only chunks. -/
def rstripChunks (chunks : List (List Char)) : List (List Char) :=
  (chunks.reverse.dropWhile isWsChunk).reverse

/-- The inner `while chunks:` accumulation loop of `TextWrapper.wrap`: greedily
moves chunks onto `current_line` while the line length stays within `width`.
Returns the line so far, the remaining chunks, `current_line_length`, and the
final value of `current_chunk_length` (the length of the last chunk examined,
0 if none was). -/
def innerLoop (width : Nat) :
    List (List Char) → Nat → Nat → List (List Char) →
    List (List Char) × List (List Char) × Nat × Nat
  | [], curLen, lastLen, acc => (acc, [], curLen, lastLen)
  | ch :: rest, curLen, _, acc =>
      if curLen + ch.length ≤ width then
        innerLoop width rest (curLen + ch.length) ch.length (acc ++ [ch])
      else (acc, ch :: rest, curLen, ch.length)

/-- One iteration of the outer `while chunks:` loop of `TextWrapper.wrap`:
strip leading whitespace chunks, greedily fill the line, hard-split the first
remaining chunk when it alone exceeds the width (`space_left = width -
current_line_length`), strip trailing whitespace chunks, and join the line
(the empty line joins to the empty string, which is what the source appends
for an empty `current_line`).  Returns the produced line and the remaining
chunks. -/
def outerStep (width : Nat) (chunks : List (List Char)) :
    List Char × List (List Char) :=
  let stripped := lstripChunks chunks
  let r := innerLoop width stripped 0 0 []
  let line := r.1
  let rest := r.2.1
  let curLen := r.2.2.1
  let lastLen := r.2.2.2
  let split :
      List (List Char) × List (List Char) :=
    if lastLen > width then
      match rest with
      | ch :: rs => (line ++ [ch.take (width - curLen)],
                     ch.drop (width - curLen) :: rs)
      | [] => (line, rest)
    else (line, rest)
  ((rstripChunks split.1).flatten, split.2)

/-- The outer `while chunks:` loop of `TextWrapper.wrap`, modelled with fuel:
`none` when the fuel is exhausted before the chunk list empties.  The Python
loop has no other exit, so divergence of the source corresponds to this
returning `none` for every fuel value. -/
def wrapLoop (fuel width : Nat) (chunks : List (List Char)) :
    Option (List (List Char)) :=
  match fuel with
  | 0 => match chunks with | [] => some [] | _ :: _ => none
  | fuel + 1 =>
      match chunks with
      | [] => some []
      | _ :: _ =>
          let s := outerStep width chunks
          (wrapLoop fuel width s.2).map (fun ls => s.1 :: ls)

/-- Embeds `textwrap.wrap(text, width)` on a plain string, with fuel for the
outer loop. -/
def wrapPlain (fuel : Nat) (text : List Char) (width : Nat) :
    Option (List (List Char)) :=
  wrapLoop fuel width (chunkPlain text)

/-! ## base.py and display_elements.py — the draw/update contract -/

/-- Embeds the `Geometry` namedtuple stored in `_previous_geometry`. -/
structure Geometry where
  width : Nat
  height : Nat
  x : Nat
  y : Nat
  xCrop : String
  yCrop : String
  deriving DecidableEq, Repr

/-- A format reference (`default_format`): a placeholder or placeholder group,
modelled by the identities of its constituent placeholders; `+` on formats is
`PlaceholderGroup` concatenation. -/
abbrev Fmt : Type := List Nat

/-- Embeds the `default_format` composition shared by `get_all_blocks` and
`get_updated_blocks`: `if self.default_format: default_format =
default_format + self.default_format if default_format else
self.default_format`. -/
def composeFormat (inherited own : Option Fmt) : Option Fmt :=
  match own with
  | none => inherited
  | some o =>
      match inherited with
      | none => some o
      | some i => some (i ++ o)

/-- Embeds `Block` from `base.py`: a positioned rectangle of lines plus the
baseline format. -/
structure Block where
  x : Nat
  y : Nat
  lines : List (List Char)
  format : Option Fmt
  deriving DecidableEq, Repr

/-- The state of an `ABCDisplayElement` relevant to the update contract,
with the widget-specific abstract method `_get_all_blocks` (block production
from a geometry and a composed default format) as a function field. -/
structure DisplayElement where
  prevGeometry : Option Geometry
  updated : Bool
  defaultFormat : Option Fmt
  produceBlocks : Geometry → Option Fmt → List Block

/-- Embeds `ABCUIElement.get_updated_blocks(default_format)` together with
`ABCDisplayElement._get_updated_blocks`: with no stored geometry it raises
`ValueError`; otherwise, if the element is dirty it re-invokes block
production on the *stored* geometry with the composed format and clears the
dirty flag, and if it is clean it returns no blocks and leaves the element
untouched.  The result pairs the produced blocks with the element's new
state. -/
def getUpdatedBlocks (e : DisplayElement) (inherited : Option Fmt) :
    Except String (List Block × DisplayElement) :=
  match e.prevGeometry with
  | none => .error "draw() must be called before the element can be updated"
  | some g =>
      let fmt := composeFormat inherited e.defaultFormat
      if e.updated then
        .ok (e.produceBlocks g fmt, { e with updated := false })
      else
        .ok ([], e)

/-! ## container_elements.py — dirty-flag propagation (C3)

The element tree is modelled with leaves carrying their dirty bit,
`default_format` and declared `min_height`, and containers carrying their own
`_updated` bit plus their children.  `ABCContainerElement.updated` is the
getter `self._updated or any(element.updated for element in self)`; a full
`draw` runs `get_all_blocks`, whose `_get_all_blocks` recurses into exactly
the children yielded by `_get_elements_and_parameters` (each recursed child
clears its flag in its own `get_all_blocks`) and then clears the element's
own flag.  Which children are yielded depends on the container:
`SplitContainer._get_elements_and_parameters` yields every child, while
`Stack._get_elements_and_parameters` walks children in order, granting each
`min(remaining_height, child.min_height or 1)` rows, and stops once the
height is exhausted — children beyond that point are never drawn and keep
their dirty flags.  The `default_format` setter on a leaf stores the new
format and sets `updated = True`. -/

/-- A UI element tree: leaves with their dirty bit, `default_format` and
declared `min_height`; containers with their own `_updated` bit and their
children. -/
inductive UIElem where
  | leaf (updated : Bool) (defaultFormat : Option Fmt) (minHeight : Option Nat)
  | node (selfUpdated : Bool) (children : List UIElem)

mutual

/-- Embeds the `updated` property: a leaf reports its own flag, a container
reports `self._updated or any(element.updated for element in self)`. -/
def updatedOf : UIElem → Bool
  | .leaf u _ _ => u
  | .node u cs => u || updatedOfList cs

/-- The `any(element.updated for element in self)` part of the container
`updated` getter. -/
def updatedOfList : List UIElem → Bool
  | [] => false
  | c :: cs => updatedOf c || updatedOfList cs

end

mutual

/-- Embeds a full `draw()` (`get_all_blocks`) of an element whose containers
all lay out every child — as `SplitContainer._get_elements_and_parameters`
always does (it yields one entry per child) and
`Stack._get_elements_and_parameters` does when the height suffices.  Every
recursed element clears its dirty flag after producing its blocks.  A draw
through a Stack whose height runs out is NOT of this shape; it is embedded
separately by `drawStack`. -/
def drawAllLaidOut : UIElem → UIElem
  | .leaf _ df mh => .leaf false df mh
  | .node _ cs => .node false (drawAllLaidOutList cs)

/-- The recursion of `drawAllLaidOut` over a container's children. -/
def drawAllLaidOutList : List UIElem → List UIElem
  | [] => []
  | c :: cs => drawAllLaidOut c :: drawAllLaidOutList cs

end

/-- Embeds `element.min_height or 1` as `Stack._get_elements_and_parameters`
reads it from a leaf child (Python `or` maps both `None` and 0 to 1). -/
def leafMinHeightOr1 (mh : Option Nat) : Nat :=
  match mh with
  | none => 1
  | some 0 => 1
  | some m => m

/-- Embeds the `valign == 'top'` walk of
`Stack._get_elements_and_parameters` combined with the recursion of
`_get_all_blocks`, for a Stack whose children are leaves: each child in order
receives `elem_height = min(remaining_height, min_height or 1)`; a child with
a nonzero grant is drawn (its flag clears, `remaining_height` drops by the
grant), and a zero grant stops the walk, leaving that child and all later
ones untouched.  Returns `none` for a container child (the model covers
Stacks of leaf children, which is the shape the claims exercise). -/
def drawStackChildren (height : Nat) : List UIElem → Option (List UIElem)
  | [] => some []
  | .node _ _ :: _ => none
  | .leaf u df mh :: rest =>
      let elemHeight := min height (leafMinHeightOr1 mh)
      if elemHeight = 0 then some (UIElem.leaf u df mh :: rest)
      else
        (drawStackChildren (height - elemHeight) rest).map
          (fun tail => UIElem.leaf false df mh :: tail)

/-- Embeds a full `draw()` of a `Stack` (default `valign='top'`) of leaf
children at the given height: `_get_all_blocks` draws the children granted
height by `_get_elements_and_parameters` (clearing their flags), then
`get_all_blocks` clears the Stack's own `_updated` bit.  Children beyond the
exhausted height are never recursed into. -/
def drawStack (height : Nat) : UIElem → Option UIElem
  | .leaf _ _ _ => none
  | .node _ cs => (drawStackChildren height cs).map (.node false ·)

mutual

/-- Embeds assigning `default_format` on the leaf reached by the given child
index path: the setter stores the value and sets `updated = True`.  Returns
`none` when the path does not lead to a leaf. -/
def setLeafFormat : List Nat → Fmt → UIElem → Option UIElem
  | [], f, .leaf _ _ mh => some (.leaf true (some f) mh)
  | [], _, .node _ _ => none
  | _ :: _, _, .leaf _ _ _ => none
  | i :: p, f, .node u cs => (setLeafFormatList i p f cs).map (.node u ·)

/-- Path descent into a container's child list for `setLeafFormat`. -/
def setLeafFormatList : Nat → List Nat → Fmt → List UIElem →
    Option (List UIElem)
  | _, _, _, [] => none
  | 0, p, f, c :: cs => (setLeafFormat p f c).map (· :: cs)
  | i + 1, p, f, c :: cs => (setLeafFormatList i p f cs).map (c :: ·)

end

/-! ## input_elements.py — LineBuffer -/

/-- The state of a `LineBuffer`: its text content and cursor position (the
`line_received_callback` is external glue and not part of the state the
claims concern). -/
structure LineBuffer where
  content : List Char
  cursor : Nat
  deriving DecidableEq, Repr

/-- Embeds `LineBuffer._insert_char(char)`: insert the (length-1) string at
the cursor and advance the cursor. -/
def insertChar (b : LineBuffer) (s : List Char) : LineBuffer :=
  { content :=
      if b.cursor = b.content.length then b.content ++ s
      else b.content.take b.cursor ++ s ++ b.content.drop b.cursor,
    cursor := b.cursor + 1 }

/-- Embeds `LineBuffer._delete_char(pos)`:
`content[:pos] + content[pos + 1:]`. -/
def deleteChar (b : LineBuffer) (pos : Nat) : LineBuffer :=
  { b with content := b.content.take pos ++ b.content.drop (pos + 1) }

/-- Embeds `LineBuffer._backspace_char()`: no-op at cursor 0; otherwise drop
the character before the cursor (`content[:-1]` at the end of the line,
`_delete_char(cursor - 1)` in the middle) and move the cursor back one. -/
def backspaceChar (b : LineBuffer) : LineBuffer :=
  if b.cursor = 0 then b
  else
    let content :=
      if b.cursor = b.content.length then b.content.dropLast
      else (deleteChar b (b.cursor - 1)).content
    { content := content, cursor := b.cursor - 1 }

/-- Embeds `LineBuffer._move_cursor(delta)`:
`clamp(cursor_position + delta, 0, len(self))` (the intermediate value is a
Python int and may be negative before clamping). -/
def moveCursor (b : LineBuffer) (delta : Int) : LineBuffer :=
  { b with
    cursor := (clamp ((b.cursor : Int) + delta) 0 (b.content.length : Int)).toNat }

/-- Embeds `LineBuffer._line_received()`: the committed content is handed to
the external callback and the buffer is cleared. -/
def lineReceived (_ : LineBuffer) : LineBuffer :=
  { content := [], cursor := 0 }

/-- Embeds `LineBuffer.handle_input(data)`: a length-1 string is inserted
verbatim, the named tokens dispatch to their handlers, and anything else is
ignored. -/
def handleInput (b : LineBuffer) (data : String) : LineBuffer :=
  if data.length = 1 then insertChar b data.toList
  else if data = "space" then insertChar b [' ']
  else if data = "backspace" then backspaceChar b
  else if data = "delete" then deleteChar b b.cursor
  else if data = "left" then moveCursor b (-1)
  else if data = "right" then moveCursor b 1
  else if data = "home" then { b with cursor := 0 }
  else if data = "end" then { b with cursor := b.content.length }
  else if data = "return" then lineReceived b
  else b

/-- A fresh `LineBuffer()`. -/
def freshBuffer : LineBuffer :=
  { content := [], cursor := 0 }

/-! ## Concrete instances used by witnesses -/

/-- A concrete widget block-production function for display-element
witnesses. -/
def demoProduce : Geometry → Option Fmt → List Block :=
  fun g f => [⟨g.x, g.y, [['.']], f⟩]

/-- A concrete stored geometry. -/
def demoGeometry : Geometry :=
  ⟨3, 1, 0, 0, "left", "top"⟩

/-- A display element that has never been drawn. -/
def demoElemUnlaid : DisplayElement :=
  ⟨none, true, none, demoProduce⟩

/-- A laid-out, clean display element. -/
def demoElemClean : DisplayElement :=
  ⟨some demoGeometry, false, none, demoProduce⟩

/-- A laid-out, dirty display element. -/
def demoElemDirty : DisplayElement :=
  ⟨some demoGeometry, true, none, demoProduce⟩

end Jcn

namespace Jcn

/-! ## Theorems -/

/-- Sanity anchor for the weighted round robin against
`test_util.test_weighted_round_robin`: input `[(a,3),(b,1),(c,2)]` cycles over
`[a, c, b, a, c, a]`. -/
theorem weightedRoundRobin_matches_unit_test :
    weightedRoundRobinList 16 [(0, 3), (1, 1), (2, 2)] =
      [0, 2, 1, 0, 2, 0] := by decide

/-- C1: a SplitContainer with two children of weights (1, 2), no min or max
sizes on the split axis, and a target size of 9 allocates 3 units to the
weight-1 child and 6 to the weight-2 child (`_calculate_element_sizes`
returns the sizes in child order). -/
theorem splitContainer_weights_one_two_allocates_three_six :
    calculateElementSizes [⟨none, none, 1⟩, ⟨none, none, 2⟩] 9 64 =
      some [3, 6] := by decide

/-- C5 counterexample: expanding the one-element sequence `[3]` to length 4
with default `[9]` under scheme `'middle'` yields `[9, 9, 3, 9]` — the odd
padding unit goes to the leading side — and not `[9, 3, 9, 9]`, the result
the claim (extra unit on the trailing side) predicts.  This matches
`test_util.test_crop_or_expand_expand`, which asserts
`crop_or_expand([3], 4, default=[''], scheme='middle') == ['', '', 3, '']`. -/
theorem cropOrExpand_middle_extra_unit_counterexample :
    cropOrExpand [(3 : Nat)] 4 [9] .middle = [9, 9, 3, 9] ∧
      ([9, 9, 3, 9] : List Nat) ≠ [9, 3, 9, 9] := by decide

/-- C5 (amended): for every sequence shorter than the target length,
`crop_or_expand` with scheme `'middle'` pads with the default on both sides,
and when the total padding amount is odd the extra single unit goes to the
*leading* side: the leading pad has `(missing + 1) / 2` copies and the
trailing pad `missing / 2` copies, so an odd `missing` makes the leading pad
one unit longer. -/
theorem cropOrExpand_middle_extra_unit_leading {α : Type} (l : List α)
    (n : Nat) (d : List α) (h : l.length < n) :
    cropOrExpand l n d .middle =
      seqMul d ((n - l.length + 1) / 2) ++ l ++
        seqMul d ((n - l.length) / 2) ∧
      ((n - l.length) % 2 = 1 →
        (n - l.length + 1) / 2 = (n - l.length) / 2 + 1) := by
  constructor
  · have h1 : ¬ l.length > n := by omega
    simp [cropOrExpand, h1, h]
  · omega

/-- Witness for C5 (amended) at the concrete input `[3]`, target 4,
default `[9]`. -/
theorem cropOrExpand_middle_extra_unit_leading_witness :
    cropOrExpand [(3 : Nat)] 4 [9] .middle =
      seqMul [9] ((4 - 1 + 1) / 2) ++ [3] ++ seqMul [9] ((4 - 1) / 2) ∧
      ((4 - 1) % 2 = 1 → (4 - 1 + 1) / 2 = (4 - 1) / 2 + 1) :=
  cropOrExpand_middle_extra_unit_leading [3] 4 [9] (by decide)

/-- C6 counterexample: word-wrapping the empty plain string at width 10 does
not yield a single empty line — it yields no lines at all (the chunk list of
`''` is empty after filtering, so the wrap loop never runs).  This matches
`test_textwrap.test_wrap_str`, which asserts `wrap('', 10) == []`. -/
theorem wrap_empty_counterexample :
    wrapPlain 40 [] 10 = some [] ∧
      (some [] : Option (List (List Char))) ≠ some [[]] := by decide

/-- C6 (amended): for every width (and any fuel), word-wrapping an empty
plain input text yields the empty list of lines, not a single empty line. -/
theorem wrap_empty_plain_yields_no_lines (w fuel : Nat) :
    wrapPlain fuel [] w = some [] := by
  cases fuel <;> rfl

/-- C8: the word wrapper does not terminate on every input.  At width 0 with
the single chunk `'a'`, each outer iteration hard-splits a zero-length prefix
off the oversized chunk and leaves the chunk list unchanged, so the loop
never finishes: the fuelled embedding returns `none` for every fuel value. -/
theorem wrap_width_zero_diverges (fuel : Nat) :
    wrapPlain fuel [Char.ofNat 97] 0 = none := by
  have hchunk : chunkPlain [Char.ofNat 97] = [[Char.ofNat 97]] := rfl
  have hstep : outerStep 0 [[Char.ofNat 97]] = ([], [[Char.ofNat 97]]) := by
    decide
  unfold wrapPlain
  rw [hchunk]
  induction fuel with
  | zero => rfl
  | succ f ih => simp [wrapLoop, hstep, ih]

/-- C2 counterexample: a StyledString built by concatenating a plain string
with a component can hold two adjacent runs with the same placeholder
identity.  `'x' + StringComponent(null_placeholder, 'y')` dispatches to
`StringComponent.__radd__`, which wraps `'x'` in a second null-placeholder
component and builds `StringWithFormatting((x-run, y-run))` without merging,
so both adjacent runs carry the shared `null_placeholder` singleton. -/
theorem styledString_adjacent_runs_counterexample :
    noAdjacentSamePid (scRaddStr [Char.ofNat 120] (nullPid, [Char.ofNat 121]))
      = false := by decide

/-- C2 (amended): concatenation merges same-identity runs on the paths that
check for them — `StringComponent.__add__` collapses two components carrying
the same placeholder into the single merged run (so `Bold('A') + Bold('B')`
is one run `Bold('AB')`), and `StringWithFormatting.__add__` merges a
component operand into its final run when the placeholder identities match —
but the reflected addition `str + component` (and `StringWithFormatting +
StringWithFormatting`) concatenates runs without a merge check, so the
universal no-adjacent-equal-runs invariant does not hold for every
concatenation-built StyledString. -/
theorem styledString_merge_on_checked_paths (p : Nat) (a b : List Char)
    (s : List Run) (last r : Run) (hlast : s.getLast? = some last)
    (hpid : r.1 = last.1) :
    scAddSc (p, a) (p, b) = .component (p, a ++ b) ∧
      swfAddSc s r = some (s.dropLast ++ [(last.1, last.2 ++ r.2)]) := by
  constructor
  · simp [scAddSc]
  · simp [swfAddSc, hlast, hpid]

/-- Witness for C2 (amended): merging two same-placeholder components and
merging a component into a one-run StyledString, at placeholder id 1 with
texts `'A'` and `'B'`. -/
theorem styledString_merge_on_checked_paths_witness :
    scAddSc (1, [Char.ofNat 65]) (1, [Char.ofNat 66]) =
        .component (1, [Char.ofNat 65] ++ [Char.ofNat 66]) ∧
      swfAddSc [(1, [Char.ofNat 65])] (1, [Char.ofNat 66]) =
        some ([(1, [Char.ofNat 65])].dropLast ++
          [(1, [Char.ofNat 65] ++ [Char.ofNat 66])]) :=
  styledString_merge_on_checked_paths 1 [Char.ofNat 65] [Char.ofNat 66]
    [(1, [Char.ofNat 65])] (1, [Char.ofNat 65]) (1, [Char.ofNat 66]) rfl rfl

/-- C4: the incremental-update contract of `get_updated_blocks`: with no
stored geometry it fails with the update-before-draw `ValueError`; with a
stored geometry and a clean element it returns no blocks and leaves the
element untouched (no re-render); with a stored geometry and a dirty element
it re-invokes block production on the stored geometry with the composed
format and clears the dirty flag. -/
theorem getUpdatedBlocks_contract (e : DisplayElement) (df : Option Fmt) :
    (e.prevGeometry = none →
      getUpdatedBlocks e df =
        .error "draw() must be called before the element can be updated") ∧
      (∀ g, e.prevGeometry = some g → e.updated = false →
        getUpdatedBlocks e df = .ok ([], e)) ∧
      (∀ g, e.prevGeometry = some g → e.updated = true →
        getUpdatedBlocks e df =
          .ok (e.produceBlocks g (composeFormat df e.defaultFormat),
            { e with updated := false })) := by
  refine ⟨fun h => ?_, fun g hg hu => ?_, fun g hg hu => ?_⟩
  · simp [getUpdatedBlocks, h]
  · simp [getUpdatedBlocks, hg, hu]
  · simp [getUpdatedBlocks, hg, hu]

/-- Witness for C4 at three concrete elements: never-drawn, laid-out clean,
and laid-out dirty. -/
theorem getUpdatedBlocks_contract_witness :
    getUpdatedBlocks demoElemUnlaid none =
        .error "draw() must be called before the element can be updated" ∧
      getUpdatedBlocks demoElemClean none = .ok ([], demoElemClean) ∧
      getUpdatedBlocks demoElemDirty none =
        .ok (demoProduce demoGeometry none,
          { demoElemDirty with updated := false }) :=
  ⟨(getUpdatedBlocks_contract demoElemUnlaid none).1 rfl,
    (getUpdatedBlocks_contract demoElemClean none).2.1 demoGeometry rfl rfl,
    (getUpdatedBlocks_contract demoElemDirty none).2.2 demoGeometry rfl rfl⟩

theorem swfLen_append (a b : List Run) :
    swfLen (a ++ b) = swfLen a + swfLen b := by
  simp [swfLen]

/-- C10 counterexample: length additivity does not hold for *every*
StringWithFormatting.  On the empty-content StyledString (reachable, e.g., as
the slice `s[a:a]` away from run ends), `+` with a plain string or a
component evaluates `self._content[-1]` on an empty tuple and raises
`IndexError` instead of producing a sum-length result. -/
theorem swfAdd_empty_content_counterexample :
    swfAddStr [] [Char.ofNat 120] = none ∧
      swfAddSc [] (1, [Char.ofNat 120]) = none := by decide

/-- C10 (amended): concatenation of styled strings is length-additive for
every StringWithFormatting with a non-empty run sequence (the data model's
stated shape): adding a StringWithFormatting, a StringComponent, or a plain
string yields a result whose length is the sum of the operands' lengths,
whether or not runs merge at the seam. -/
theorem swfAdd_length_additive (s t : List Run) (r : Run) (txt : List Char)
    (h : s ≠ []) :
    swfLen (swfAddSwf s t) = swfLen s + swfLen t ∧
      (∃ u, swfAddSc s r = some u ∧
        swfLen u = swfLen s + r.2.length) ∧
      (∃ u, swfAddStr s txt = some u ∧
        swfLen u = swfLen s + txt.length) := by
  have hlast : s.getLast? = some (s.getLast h) := List.getLast?_eq_getLast s h
  have hsplit : s.dropLast ++ [s.getLast h] = s :=
    List.dropLast_append_getLast h
  have hs : swfLen s = swfLen s.dropLast + (s.getLast h).2.length := by
    conv_lhs => rw [← hsplit]
    simp [swfLen_append, swfLen]
  refine ⟨by simp [swfAddSwf, swfLen_append], ?_, ?_⟩
  · by_cases hp : r.1 = (s.getLast h).1
    · refine ⟨s.dropLast ++ [((s.getLast h).1, (s.getLast h).2 ++ r.2)],
        by simp [swfAddSc, hlast, hp], ?_⟩
      rw [swfLen_append, hs]
      simp only [swfLen, List.map_cons, List.map_nil, List.sum_cons,
        List.sum_nil, List.length_append]
      omega
    · refine ⟨s ++ [r], by simp [swfAddSc, hlast, hp], ?_⟩
      rw [swfLen_append]
      simp [swfLen]
  · by_cases hp : (s.getLast h).1 = nullPid
    · refine ⟨s.dropLast ++ [((s.getLast h).1, (s.getLast h).2 ++ txt)],
        by simp [swfAddStr, hlast, hp], ?_⟩
      rw [swfLen_append, hs]
      simp only [swfLen, List.map_cons, List.map_nil, List.sum_cons,
        List.sum_nil, List.length_append]
      omega
    · refine ⟨s ++ [(nullPid, txt)], by simp [swfAddStr, hlast, hp], ?_⟩
      rw [swfLen_append]
      simp [swfLen]

/-- Witness for C10 (amended) at a concrete one-run StyledString with each
operand kind. -/
theorem swfAdd_length_additive_witness :
    swfLen (swfAddSwf [(1, [Char.ofNat 65])] [(2, [Char.ofNat 66])]) =
        swfLen [(1, [Char.ofNat 65])] + swfLen [(2, [Char.ofNat 66])] ∧
      (∃ u, swfAddSc [(1, [Char.ofNat 65])] (1, [Char.ofNat 67]) = some u ∧
        swfLen u = swfLen [(1, [Char.ofNat 65])] +
          (1, [Char.ofNat 67]).2.length) ∧
      (∃ u, swfAddStr [(1, [Char.ofNat 65])] [Char.ofNat 68] = some u ∧
        swfLen u = swfLen [(1, [Char.ofNat 65])] +
          [Char.ofNat 68].length) :=
  swfAdd_length_additive [(1, [Char.ofNat 65])] [(2, [Char.ofNat 66])]
    (1, [Char.ofNat 67]) [Char.ofNat 68] (by decide)

theorem updatedOfList_eq_any (cs : List UIElem) :
    updatedOfList cs = cs.any updatedOf := by
  induction cs with
  | nil => rfl
  | cons c cs ih => simp [updatedOfList, ih]

mutual

theorem updatedOf_drawAllLaidOut :
    ∀ t : UIElem, updatedOf (drawAllLaidOut t) = false
  | .leaf _ df mh => by simp [drawAllLaidOut, updatedOf]
  | .node _ cs => by
      simp [drawAllLaidOut, updatedOf, updatedOfList_drawAllLaidOutList cs]

theorem updatedOfList_drawAllLaidOutList :
    ∀ cs : List UIElem, updatedOfList (drawAllLaidOutList cs) = false
  | [] => by simp [drawAllLaidOutList, updatedOfList]
  | c :: cs => by
      simp [drawAllLaidOutList, updatedOfList, updatedOf_drawAllLaidOut c,
        updatedOfList_drawAllLaidOutList cs]

end

mutual

theorem updatedOf_setLeafFormat :
    ∀ (p : List Nat) (f : Fmt) (t t' : UIElem),
      setLeafFormat p f t = some t' → updatedOf t' = true
  | [], f, .leaf _ _ _, t', h => by
      simp only [setLeafFormat, Option.some.injEq] at h
      subst h
      rfl
  | [], _, .node _ _, _, h => by simp [setLeafFormat] at h
  | _ :: _, _, .leaf _ _ _, _, h => by simp [setLeafFormat] at h
  | i :: p, f, .node u cs, t', h => by
      simp only [setLeafFormat, Option.map_eq_some'] at h
      obtain ⟨cs', hcs, rfl⟩ := h
      simp [updatedOf, updatedOfList_setLeafFormatList i p f cs cs' hcs]

theorem updatedOfList_setLeafFormatList :
    ∀ (i : Nat) (p : List Nat) (f : Fmt) (cs cs' : List UIElem),
      setLeafFormatList i p f cs = some cs' → updatedOfList cs' = true
  | _, _, _, [], _, h => by simp [setLeafFormatList] at h
  | 0, p, f, c :: cs, cs', h => by
      simp only [setLeafFormatList, Option.map_eq_some'] at h
      obtain ⟨c', hc, rfl⟩ := h
      simp [updatedOfList, updatedOf_setLeafFormat p f c c' hc]
  | i + 1, p, f, c :: cs, cs', h => by
      simp only [setLeafFormatList, Option.map_eq_some'] at h
      obtain ⟨cs₂, hcs, rfl⟩ := h
      simp [updatedOfList, updatedOfList_setLeafFormatList i p f cs cs₂ hcs]

end

/-- C3 counterexample: after a full `draw()` a container's `updated` is not
always `False`.  A `Stack` of three children with `min_height = 2` drawn at
height 4 lays out only the first two children
(`Stack._get_elements_and_parameters` grants
`min(remaining_height, min_height or 1)` and stops when the grant hits zero),
so the third child is never recursed into, keeps its dirty flag, and the
Stack's `updated` getter reports `True` after the draw. -/
theorem stack_draw_exhausted_height_counterexample :
    drawStack 4
        (.node true [.leaf true none (some 2), .leaf true none (some 2),
          .leaf true none (some 2)]) =
      some (.node false [.leaf false none (some 2), .leaf false none (some 2),
        .leaf true none (some 2)]) ∧
      updatedOf
        (.node false [.leaf false none (some 2), .leaf false none (some 2),
          .leaf true none (some 2)]) = true :=
  ⟨rfl, rfl⟩

/-- C3 (amended): the container dirty-flag invariant and its consequences: a
container's `updated` getter is the disjunction of its own dirty bit with its
children's `updated` flags; a full `draw()` whose layout recurses into every
child (as `SplitContainer` always does, and `Stack` does when its height
suffices) leaves every element reporting `updated = False`; and assigning a
leaf's `default_format` marks that leaf updated and makes every enclosing
container's `updated` getter report `True`.  A Stack whose height is
exhausted before all children are laid out skips the remaining children,
whose dirty flags survive the draw. -/
theorem container_updated_invariant (u : Bool) (cs : List UIElem)
    (t : UIElem) (p : List Nat) (f : Fmt) (df : Option Fmt) (lu : Bool)
    (mh : Option Nat) :
    updatedOf (.node u cs) = (u || cs.any updatedOf) ∧
      updatedOf (drawAllLaidOut t) = false ∧
      setLeafFormat [] f (.leaf lu df mh) = some (.leaf true (some f) mh) ∧
      (∀ t', setLeafFormat p f t = some t' → updatedOf t' = true) :=
  ⟨by simp [updatedOf, updatedOfList_eq_any],
    updatedOf_drawAllLaidOut t,
    rfl,
    fun t' h => updatedOf_setLeafFormat p f t t' h⟩

/-- Witness for C3 (amended): a two-leaf container whose first leaf gets a
new `default_format`; the mutated tree reports `updated = True`, while the
container (drawn while still dirty, with both children laid out) reports
`False` after the full draw. -/
theorem container_updated_invariant_witness :
    updatedOf (.node false [.leaf false none none, .leaf false none none]) =
        (false || [UIElem.leaf false none none,
          UIElem.leaf false none none].any updatedOf) ∧
      updatedOf (drawAllLaidOut
        (.node true [.leaf true (some [1]) none, .leaf false none none])) =
          false ∧
      setLeafFormat [] [2] (.leaf false none none) =
        some (.leaf true (some [2]) none) ∧
      (∀ t', setLeafFormat [0] [2]
          (.node true [.leaf true (some [1]) none, .leaf false none none]) =
            some t' →
        updatedOf t' = true) :=
  container_updated_invariant false
    [.leaf false none none, .leaf false none none]
    (.node true [.leaf true (some [1]) none, .leaf false none none])
    [0] [2] none false none

theorem clamp_le_max (v mn mx : Int) (h : mn ≤ mx) :
    mn ≤ clamp v mn mx ∧ clamp v mn mx ≤ mx := by
  simp only [clamp]
  constructor
  · rcases le_total v mn with h1 | h1 <;> rcases le_total v mx with h2 | h2 <;>
      simp [min_def, max_def, h1, h2] <;> omega
  · rcases le_total v mn with h1 | h1 <;> rcases le_total v mx with h2 | h2 <;>
      simp [min_def, max_def, h1, h2] <;> omega

theorem handleInput_cursor_le (b : LineBuffer) (d : String)
    (h : b.cursor ≤ b.content.length) :
    (handleInput b d).cursor ≤ (handleInput b d).content.length := by
  unfold handleInput
  split_ifs with h1 h2 h3 h4 h5 h6 h7 h8 h9
  · have hd : d.toList.length = 1 := h1
    simp only [insertChar]
    split_ifs with hc <;> simp [hd] <;> omega
  · simp only [insertChar]
    split_ifs with hc <;> simp <;> omega
  · simp only [backspaceChar]
    split_ifs with hc hl
    · exact h
    · simp only [List.length_dropLast]
      omega
    · simp only [deleteChar, List.length_append, List.length_take,
        List.length_drop]
      omega
  · simp only [deleteChar]
    simp
    omega
  · simp only [moveCursor]
    have hb := clamp_le_max ((b.cursor : Int) + (-1)) 0 (b.content.length : Int)
      (by positivity)
    omega
  · simp only [moveCursor]
    have hb := clamp_le_max ((b.cursor : Int) + 1) 0 (b.content.length : Int)
      (by positivity)
    omega
  · simp
  · simp
  · simp [lineReceived]
  · exact h

theorem foldl_handleInput_cursor_le (inputs : List String) (b : LineBuffer)
    (h : b.cursor ≤ b.content.length) :
    (inputs.foldl handleInput b).cursor ≤
      (inputs.foldl handleInput b).content.length := by
  induction inputs generalizing b with
  | nil => exact h
  | cons d rest ih =>
      exact ih (handleInput b d) (handleInput_cursor_le b d h)

/-- C9: for every sequence of `handle_input` tokens applied to a fresh
`LineBuffer`, the cursor stays within `[0, len(content)]` (the lower bound is
inherent to the natural-number model); in particular `'backspace'` at cursor
position 0 leaves the buffer unchanged, and `'return'` resets the content to
empty and the cursor to 0. -/
theorem lineBuffer_cursor_invariant (inputs : List String) (b : LineBuffer)
    (hb : b.cursor = 0) :
    (inputs.foldl handleInput freshBuffer).cursor ≤
        (inputs.foldl handleInput freshBuffer).content.length ∧
      handleInput b "backspace" = b ∧
      handleInput b "return" = freshBuffer := by
  refine ⟨foldl_handleInput_cursor_le inputs freshBuffer (by simp [freshBuffer]),
    ?_, ?_⟩
  · show backspaceChar b = b
    simp [backspaceChar, hb]
  · show lineReceived b = freshBuffer
    rfl

/-- Witness for C9 on a concrete token sequence (type two characters, move
left, delete one) and a concrete cursor-at-zero buffer. -/
theorem lineBuffer_cursor_invariant_witness :
    (["h", "i", "left", "backspace"].foldl handleInput
          freshBuffer).cursor ≤
        (["h", "i", "left", "backspace"].foldl handleInput
          freshBuffer).content.length ∧
      handleInput ⟨[Char.ofNat 104], 0⟩ "backspace" = ⟨[Char.ofNat 104], 0⟩ ∧
      handleInput ⟨[Char.ofNat 104], 0⟩ "return" = freshBuffer :=
  lineBuffer_cursor_invariant ["h", "i", "left", "backspace"]
    ⟨[Char.ofNat 104], 0⟩ rfl

theorem swfLen_nil : swfLen [] = 0 := rfl

theorem swfLen_cons (p : Nat) (t : List Char) (rest : List Run) :
    swfLen ((p, t) :: rest) = t.length + swfLen rest := by
  simp [swfLen]

theorem pySlice_length (t : List Char) (i j : Nat) :
    (pySlice t i j).length = min j t.length - i := by
  simp [pySlice]

theorem getSliceGo_length (a b : Nat) :
    ∀ (runs : List Run) (compStart : Nat), a < b → compStart < b →
      b ≤ compStart + swfLen runs →
      swfLen (getSliceGo a b runs compStart) = b - max a compStart
  | [], cs => by
      intro h1 h2 h3
      rw [swfLen_nil] at h3
      omega
  | (p, t) :: rest, cs => by
      intro h1 h2 h3
      rw [swfLen_cons] at h3
      have ihr := fun (h : cs + t.length < b) =>
        getSliceGo_length a b rest (cs + t.length) h1 h (by omega)
      simp only [getSliceGo]
      split_ifs with hbr hc1 hc2 hc3 hc4 hc5 hc6 <;>
        (try rw [swfLen_append, ihr (by omega)]) <;>
          simp only [swfLen_cons, swfLen_nil, pySlice_length,
            List.length_take] <;>
          omega

/-- C7 counterexample: slice/length agreement fails at `a = b = 1` on the
one-run StyledString `'A'`: `_get_slice` hits the `comp_start < slice_stop <=
comp_stop` branch and returns the entire run, so `len(s[1:1]) = 1`, not
`1 - 1 = 0`. -/
theorem styledString_slice_length_counterexample :
    getSlice [(1, [Char.ofNat 65])] 1 1 = [(1, [Char.ofNat 65])] ∧
      swfLen (getSlice [(1, [Char.ofNat 65])] 1 1) ≠ 1 - 1 := by decide

/-- C7 (amended): for every StyledString `s` and `0 <= a < b <= len(s)`, the
slice `s[a:b]` has length exactly `b - a` (placeholders contribute zero
visible length; a run may be split at the boundary).  The empty-slice case
`a = b` is excluded: when `a` coincides with the end of a stored run the
slice wrongly returns that whole run. -/
theorem styledString_slice_length (runs : List Run) (a b : Nat)
    (h1 : a < b) (h2 : b ≤ swfLen runs) :
    swfLen (getSlice runs a b) = b - a := by
  unfold getSlice
  rw [min_eq_left h2]
  have h := getSliceGo_length a b runs 0 h1 (by omega) (by omega)
  simpa using h

/-- Witness for C7 (amended): slicing the two-character run `'AB'` with
`a = 0`, `b = 1` yields length 1. -/
theorem styledString_slice_length_witness :
    swfLen (getSlice [(1, [Char.ofNat 65, Char.ofNat 66])] 0 1) = 1 - 0 :=
  styledString_slice_length [(1, [Char.ofNat 65, Char.ofNat 66])] 0 1
    (by decide) (by decide)

end Jcn
